import Mathlib

/-!
Verification of the candidate / ICE-server data model of the pion WebRTC
signaling core, shallowly embedded from the Go sources
(`iceserver.go`, `icecandidatetype.go`, `icecandidate.go`) and, where the
repository relies on collaborators outside the sources, modelled from the
specification.
-/

namespace Webrtc

/-! ## STUN URI model (external collaborator)

The Go code parses ICE-server URLs through `stun.ParseURI` from the external
`pion/stun` package.  The spec describes this interface as: for each URL,
parse scheme/host/port; scheme is one of the STUN/TURN families. -/

/-- Scheme of a STUN/TURN URI, as classified by the external parser. -/
inductive SchemeType
  | stun
  | stuns
  | turn
  | turns
  deriving DecidableEq, Repr

/-- Parsed STUN/TURN URI: scheme, host, port, plus the username/password
slots that `ICEServer.urls` fills in for TURN servers. -/
structure STUNURI where
  Scheme : SchemeType
  Host : String
  Port : Nat
  Username : String
  Password : String
  deriving DecidableEq, Repr

/-- Modelled from the spec: scheme classification done by the external
`stun.ParseURI` collaborator ("parse scheme/host/port"). -/
def parseSchemeType (s : String) : Option SchemeType :=
  if s = "stun" then some .stun
  else if s = "stuns" then some .stuns
  else if s = "turn" then some .turn
  else if s = "turns" then some .turns
  else none

/-- Default port of a scheme: 3478 for plain, 5349 for TLS variants. -/
def schemeDefaultPort : SchemeType → Nat
  | .stun => 3478
  | .turn => 3478
  | .stuns => 5349
  | .turns => 5349

/-- Split a character list on `:` separators (structural analogue of the
string splitting inside the external URI parser). -/
def splitColon : List Char → List (List Char)
  | [] => [[]]
  | c :: rest =>
    if c = ':' then [] :: splitColon rest
    else
      match splitColon rest with
      | [] => [[c]]
      | h :: t => (c :: h) :: t

/-- Decimal digits to a number; `none` when a character is not a digit or
the list is empty. -/
def natFromDigits : List Char → Option Nat
  | [] => none
  | cs => go cs 0
where
  go : List Char → Nat → Option Nat
    | [], acc => some acc
    | c :: rest, acc =>
      if c.isDigit then go rest (acc * 10 + (c.toNat - 48))
      else none

/-- Modelled from the spec: the external `stun.ParseURI` ("for each URL,
parse scheme/host/port").  Accepts `scheme:host` and `scheme:host:port`
forms with a known scheme and a non-empty host. -/
def ParseURI (raw : String) : Option STUNURI :=
  match (splitColon raw.toList).map List.asString with
  | [schemeStr, host] =>
    match parseSchemeType schemeStr with
    | some scheme =>
      if host = "" then none
      else some ⟨scheme, host, schemeDefaultPort scheme, "", ""⟩
    | none => none
  | [schemeStr, host, portStr] =>
    match parseSchemeType schemeStr, natFromDigits portStr.toList with
    | some scheme, some port =>
      if host = "" then none
      else some ⟨scheme, host, port, "", ""⟩
    | _, _ => none
  | _ => none

/-! ## ICE server (embedded from `iceserver.go`) -/

/-- OAuth credential pair carried by an ICE server (`OAuthCredential` with
`MACKey` and `AccessToken` fields). -/
structure OAuthCredential where
  MACKey : String
  AccessToken : String
  deriving DecidableEq, Repr

/-- Dynamic type of the Go `any`-typed `Credential` field: a string
password, an `OAuthCredential`, or a value of any other dynamic type. -/
inductive CredValue
  | str (s : String)
  | oauth (c : OAuthCredential)
  | other
  deriving DecidableEq, Repr

/-- Go `ICECredentialType` is an integer enum: `password = 0`,
`oauth = 1`; any other integer falls to the `default` branch of the
credential switch. -/
abbrev ICECredentialType := Int

/-- Integer value of `ICECredentialTypePassword`. -/
def ICECredentialTypePassword : ICECredentialType := 0

/-- Integer value of `ICECredentialTypeOauth`. -/
def ICECredentialTypeOauth : ICECredentialType := 1

/-- Cause wrapped inside the `InvalidAccessError` returned by
`ICEServer.urls`: a URL parse failure, `ErrNoTurnCredentials`, or
`ErrTurnCredentials`. -/
inductive ICEServerErrCause
  | parseFailure
  | noTurnCredentials
  | turnCredentials
  deriving DecidableEq, Repr

/-- Error type of ICE-server validation.  Every error path of
`ICEServer.urls` wraps its cause in `rtcerr.InvalidAccessError`. -/
inductive RTCError
  | invalidAccess (cause : ICEServerErrCause)
  deriving DecidableEq, Repr

/-- `ICEServer` as declared in `iceserver.go`: URL list, username, the
`any`-typed credential (`none` models Go `nil`) and the credential type. -/
structure ICEServer where
  URLs : List String
  Username : String
  Credential : Option CredValue
  CredentialType : ICECredentialType
  deriving DecidableEq, Repr

/-- Body of one iteration of the loop in `ICEServer.urls`: parse the URL,
and for TURN-family schemes check username/credential presence and that the
credential's dynamic type matches `CredentialType`. -/
def processURL (s : ICEServer) (raw : String) : Except RTCError STUNURI :=
  match ParseURI raw with
  | none => .error (.invalidAccess .parseFailure)
  | some url =>
    if url.Scheme = SchemeType.turn ∨ url.Scheme = SchemeType.turns then
      if s.Username = "" ∨ s.Credential = none then
        .error (.invalidAccess .noTurnCredentials)
      else
        let url := { url with Username := s.Username }
        if s.CredentialType = ICECredentialTypePassword then
          match s.Credential with
          | some (.str password) => .ok { url with Password := password }
          | _ => .error (.invalidAccess .turnCredentials)
        else if s.CredentialType = ICECredentialTypeOauth then
          match s.Credential with
          | some (.oauth _) => .ok url
          | _ => .error (.invalidAccess .turnCredentials)
        else
          .error (.invalidAccess .turnCredentials)
    else
      .ok url

/-- Loop of `ICEServer.urls` over the URL list: first error aborts, else
all parsed URIs are collected in order. -/
def urlsLoop (s : ICEServer) : List String → Except RTCError (List STUNURI)
  | [] => .ok []
  | raw :: rest =>
    match processURL s raw with
    | .error e => .error e
    | .ok url =>
      match urlsLoop s rest with
      | .error e => .error e
      | .ok urls => .ok (url :: urls)

/-- `ICEServer.urls` from `iceserver.go`. -/
def ICEServer.urls (s : ICEServer) : Except RTCError (List STUNURI) :=
  urlsLoop s s.URLs

/-- `ICEServer.validate` from `iceserver.go`: discard the URI list, keep
the error. -/
def ICEServer.validate (s : ICEServer) : Except RTCError Unit :=
  match s.urls with
  | .ok _ => .ok ()
  | .error e => .error e

/-- A raw URL string parses to a TURN-family URI. -/
def isTurnURL (u : String) : Bool :=
  match ParseURI u with
  | some uri => uri.Scheme = SchemeType.turn ∨ uri.Scheme = SchemeType.turns
  | none => false

/-! ## ICE candidate types (embedded from `icecandidatetype.go`)

Go declares `type ICECandidateType int` with `iota` constants, and the
external `pion/ice` package declares `type CandidateType int` likewise, so
both are embedded as integers. -/

/-- Go `ICECandidateType`, an integer enum. -/
abbrev ICECandidateType := Int

/-- Zero value `ICECandidateTypeUnknown`. -/
def ICECandidateTypeUnknown : ICECandidateType := 0

/-- Enum value `ICECandidateTypeHost`. -/
def ICECandidateTypeHost : ICECandidateType := 1

/-- Enum value `ICECandidateTypeSrflx`. -/
def ICECandidateTypeSrflx : ICECandidateType := 2

/-- Enum value `ICECandidateTypePrflx`. -/
def ICECandidateTypePrflx : ICECandidateType := 3

/-- Enum value `ICECandidateTypeRelay`. -/
def ICECandidateTypeRelay : ICECandidateType := 4

/-- Modelled from the spec: the external `ice.CandidateType` integer enum
of the ICE collaborator (unspecified, then the four candidate kinds). -/
abbrev IceCandidateType := Int

/-- External enum value `ice.CandidateTypeUnspecified` (zero value). -/
def CandidateTypeUnspecified : IceCandidateType := 0

/-- External enum value `ice.CandidateTypeHost`. -/
def CandidateTypeHost : IceCandidateType := 1

/-- External enum value `ice.CandidateTypeServerReflexive`. -/
def CandidateTypeServerReflexive : IceCandidateType := 2

/-- External enum value `ice.CandidateTypePeerReflexive`. -/
def CandidateTypePeerReflexive : IceCandidateType := 3

/-- External enum value `ice.CandidateTypeRelay`. -/
def CandidateTypeRelay : IceCandidateType := 4

/-- Modelled from the spec: `String()` of the external `ice.CandidateType`
(the four RFC names, with a fallback for unknown values). -/
def IceCandidateType.toStr (t : IceCandidateType) : String :=
  if t = CandidateTypeHost then "host"
  else if t = CandidateTypeServerReflexive then "srflx"
  else if t = CandidateTypePeerReflexive then "prflx"
  else if t = CandidateTypeRelay then "relay"
  else "Unknown candidate type"

/-- Errors of the candidate conversion functions: the sentinel errors
`errICECandidateTypeUnknown` and `errICEInvalidConvertCandidateType`, each
wrapped by `fmt.Errorf` with a detail string. -/
inductive CandError
  | candidateTypeUnknown (detail : String)
  | invalidConvertCandidateType (detail : String)
  | unknownProtocol (detail : String)
  deriving DecidableEq, Repr

/-- Wire names of the four candidate types (`iceCandidateTypeHostStr`
etc.). -/
def iceCandidateTypeHostStr : String := "host"

/-- Wire name `srflx`. -/
def iceCandidateTypeSrflxStr : String := "srflx"

/-- Wire name `prflx`. -/
def iceCandidateTypePrflxStr : String := "prflx"

/-- Wire name `relay`. -/
def iceCandidateTypeRelayStr : String := "relay"

/-- `NewICECandidateType` from `icecandidatetype.go`: Go returns the pair
(value, error); the error is `none` on the four known names. -/
def NewICECandidateType (raw : String) : ICECandidateType × Option CandError :=
  if raw = iceCandidateTypeHostStr then (ICECandidateTypeHost, none)
  else if raw = iceCandidateTypeSrflxStr then (ICECandidateTypeSrflx, none)
  else if raw = iceCandidateTypePrflxStr then (ICECandidateTypePrflx, none)
  else if raw = iceCandidateTypeRelayStr then (ICECandidateTypeRelay, none)
  else (ICECandidateTypeUnknown, some (.candidateTypeUnknown raw))

/-- `ICECandidateType.toStr` from `icecandidatetype.go`; the default
branch returns `ErrUnknownType.Error()`, i.e. the string `unknown`. -/
def ICECandidateType.toStr (t : ICECandidateType) : String :=
  if t = ICECandidateTypeHost then iceCandidateTypeHostStr
  else if t = ICECandidateTypeSrflx then iceCandidateTypeSrflxStr
  else if t = ICECandidateTypePrflx then iceCandidateTypePrflxStr
  else if t = ICECandidateTypeRelay then iceCandidateTypeRelayStr
  else "unknown"

/-- `getCandidateType` from `icecandidatetype.go`: on an unrecognized
input it returns `ICECandidateTypeUnknown` together with
`errICEInvalidConvertCandidateType`. -/
def getCandidateType (candidateType : IceCandidateType) :
    ICECandidateType × Option CandError :=
  if candidateType = CandidateTypeHost then (ICECandidateTypeHost, none)
  else if candidateType = CandidateTypeServerReflexive then
    (ICECandidateTypeSrflx, none)
  else if candidateType = CandidateTypePeerReflexive then
    (ICECandidateTypePrflx, none)
  else if candidateType = CandidateTypeRelay then (ICECandidateTypeRelay, none)
  else
    (ICECandidateTypeUnknown,
      some (.invalidConvertCandidateType (IceCandidateType.toStr candidateType)))

/-- `convertTypeFromICE` from `icecandidate.go`: on an unrecognized input
it returns the Go cast `ICECandidateType(t)` together with
`errICECandidateTypeUnknown`. -/
def convertTypeFromICE (t : IceCandidateType) :
    ICECandidateType × Option CandError :=
  if t = CandidateTypeHost then (ICECandidateTypeHost, none)
  else if t = CandidateTypeServerReflexive then (ICECandidateTypeSrflx, none)
  else if t = CandidateTypePeerReflexive then (ICECandidateTypePrflx, none)
  else if t = CandidateTypeRelay then (ICECandidateTypeRelay, none)
  else (t, some (.candidateTypeUnknown (IceCandidateType.toStr t)))

/-- `ICECandidateType.MarshalText`: serializes via `String()`, never
errors. -/
def ICECandidateType.MarshalText (t : ICECandidateType) :
    String × Option CandError :=
  (ICECandidateType.toStr t, none)

/-- `ICECandidateType.UnmarshalText`: parses via `NewICECandidateType`,
assigning the parsed value (the zero value on failure) and returning the
error. -/
def ICECandidateType.UnmarshalText (b : String) :
    ICECandidateType × Option CandError :=
  NewICECandidateType b

/-! ## ICE candidates (embedded from `icecandidate.go`)

The candidate objects of the external `pion/ice` package (constructors,
`Marshal`, TCP types, network types) are collaborators outside the
sources; they are modelled from the spec's description of the wire form
and its permissive construction rule. -/

/-- Modelled from the spec: Go `ICEProtocol` integer enum
(`protocol ∈ {udp, tcp}`), `udp = 1`, `tcp = 2`, zero value unknown. -/
abbrev ICEProtocol := Int

/-- Enum value `ICEProtocolUDP`. -/
def ICEProtocolUDP : ICEProtocol := 1

/-- Enum value `ICEProtocolTCP`. -/
def ICEProtocolTCP : ICEProtocol := 2

/-- Modelled from the spec: `ICEProtocol.String()`, the lowercase
transport name with a fallback for unknown values. -/
def ICEProtocol.toStr (p : ICEProtocol) : String :=
  if p = ICEProtocolUDP then "udp"
  else if p = ICEProtocolTCP then "tcp"
  else "unknown"

/-- Modelled from the spec: `NewICEProtocol`, parsing a transport name
into the enum; unknown names yield an error. -/
def NewICEProtocol (raw : String) : ICEProtocol × Option CandError :=
  if raw = "udp" then (ICEProtocolUDP, none)
  else if raw = "tcp" then (ICEProtocolTCP, none)
  else (0, some (.unknownProtocol raw))

/-- Modelled from the spec: the external `ice.TCPType` integer enum
(unspecified, active, passive, simultaneous-open). -/
abbrev IceTCPType := Int

/-- External enum value `ice.TCPTypeUnspecified` (zero value). -/
def TCPTypeUnspecified : IceTCPType := 0

/-- External enum value `ice.TCPTypeActive`. -/
def TCPTypeActive : IceTCPType := 1

/-- External enum value `ice.TCPTypePassive`. -/
def TCPTypePassive : IceTCPType := 2

/-- External enum value `ice.TCPTypeSimultaneousOpen`. -/
def TCPTypeSimultaneousOpen : IceTCPType := 3

/-- Modelled from the spec: the external `ice.NewTCPType`, mapping the
wire names to the enum and anything else to unspecified. -/
def NewTCPType (raw : String) : IceTCPType :=
  if raw = "active" then TCPTypeActive
  else if raw = "passive" then TCPTypePassive
  else if raw = "so" then TCPTypeSimultaneousOpen
  else TCPTypeUnspecified

/-- Modelled from the spec: `String()` of the external `ice.TCPType`. -/
def IceTCPType.toStr (t : IceTCPType) : String :=
  if t = TCPTypeActive then "active"
  else if t = TCPTypePassive then "passive"
  else if t = TCPTypeSimultaneousOpen then "so"
  else "unspecified"

/-- Modelled from the spec: `NetworkType().NetworkShort()` of an external
candidate, the short transport name derived from the network string. -/
def networkShort (network : String) : String :=
  if List.isPrefixOf "tcp".toList network.toList then "tcp" else "udp"

/-- Related address of an external candidate
(`ice.CandidateRelatedAddress`). -/
structure IceRelatedAddress where
  Address : String
  Port : Int
  deriving DecidableEq, Repr

/-- Modelled from the spec: the external `ice.Candidate` object, holding
the fields the repository reads back through its accessor methods. -/
structure IceCandidate where
  id : String
  candidateType : IceCandidateType
  network : String
  address : String
  port : Int
  component : Nat
  foundation : String
  priority : Nat
  relatedAddress : Option IceRelatedAddress
  tcpType : IceTCPType
  deriving DecidableEq, Repr

/-- Configuration passed to `ice.NewCandidateHost` by `toICE`. -/
structure CandidateHostConfig where
  CandidateID : String
  Network : String
  Address : String
  Port : Int
  Component : Nat
  TCPType : IceTCPType
  Foundation : String
  Priority : Nat
  deriving DecidableEq, Repr

/-- Configuration passed to `ice.NewCandidateServerReflexive`. -/
structure CandidateServerReflexiveConfig where
  CandidateID : String
  Network : String
  Address : String
  Port : Int
  Component : Nat
  Foundation : String
  Priority : Nat
  RelAddr : String
  RelPort : Int
  deriving DecidableEq, Repr

/-- Configuration passed to `ice.NewCandidatePeerReflexive`. -/
structure CandidatePeerReflexiveConfig where
  CandidateID : String
  Network : String
  Address : String
  Port : Int
  Component : Nat
  Foundation : String
  Priority : Nat
  RelAddr : String
  RelPort : Int
  deriving DecidableEq, Repr

/-- Configuration passed to `ice.NewCandidateRelay`. -/
structure CandidateRelayConfig where
  CandidateID : String
  Network : String
  Address : String
  Port : Int
  Component : Nat
  Foundation : String
  Priority : Nat
  RelAddr : String
  RelPort : Int
  deriving DecidableEq, Repr

/-- Modelled from the spec: the external `ice.NewCandidateHost`
(permissive construction; host candidates carry no related address). -/
def NewCandidateHost (config : CandidateHostConfig) : IceCandidate :=
  { id := config.CandidateID
    candidateType := CandidateTypeHost
    network := config.Network
    address := config.Address
    port := config.Port
    component := config.Component
    foundation := config.Foundation
    priority := config.Priority
    relatedAddress := none
    tcpType := config.TCPType }

/-- Modelled from the spec: the external `ice.NewCandidateServerReflexive`
(permissive construction; the related address is taken from the
configuration even when empty). -/
def NewCandidateServerReflexive (config : CandidateServerReflexiveConfig) :
    IceCandidate :=
  { id := config.CandidateID
    candidateType := CandidateTypeServerReflexive
    network := config.Network
    address := config.Address
    port := config.Port
    component := config.Component
    foundation := config.Foundation
    priority := config.Priority
    relatedAddress := some ⟨config.RelAddr, config.RelPort⟩
    tcpType := TCPTypeUnspecified }

/-- Modelled from the spec: the external `ice.NewCandidatePeerReflexive`
(permissive construction). -/
def NewCandidatePeerReflexive (config : CandidatePeerReflexiveConfig) :
    IceCandidate :=
  { id := config.CandidateID
    candidateType := CandidateTypePeerReflexive
    network := config.Network
    address := config.Address
    port := config.Port
    component := config.Component
    foundation := config.Foundation
    priority := config.Priority
    relatedAddress := some ⟨config.RelAddr, config.RelPort⟩
    tcpType := TCPTypeUnspecified }

/-- Modelled from the spec: the external `ice.NewCandidateRelay`
(permissive construction). -/
def NewCandidateRelay (config : CandidateRelayConfig) : IceCandidate :=
  { id := config.CandidateID
    candidateType := CandidateTypeRelay
    network := config.Network
    address := config.Address
    port := config.Port
    component := config.Component
    foundation := config.Foundation
    priority := config.Priority
    relatedAddress := some ⟨config.RelAddr, config.RelPort⟩
    tcpType := TCPTypeUnspecified }

/-- Modelled from the spec: the external candidate serializer
(`toWireForm` grammar `foundation component transport priority address
port typ type [raddr X rport Y] [tcptype Z]`). -/
def IceCandidate.Marshal (c : IceCandidate) : String :=
  c.foundation ++ " " ++ toString c.component ++ " " ++
    networkShort c.network ++ " " ++ toString c.priority ++ " " ++
    c.address ++ " " ++ toString c.port ++ " typ " ++
    IceCandidateType.toStr c.candidateType ++
    (match c.relatedAddress with
     | some r => " raddr " ++ r.Address ++ " rport " ++ toString r.Port
     | none => "") ++
    (if c.tcpType = TCPTypeUnspecified then ""
     else " tcptype " ++ IceTCPType.toStr c.tcpType)

/-- Go `uint16(x)` conversion from an `int` value. -/
def uint16OfInt (x : Int) : Nat := (x % 65536).toNat

/-- `ICECandidate` as declared in `icecandidate.go`. -/
structure ICECandidate where
  statsID : String
  Foundation : String
  Priority : Nat
  Address : String
  Protocol : ICEProtocol
  Port : Nat
  Typ : ICECandidateType
  Component : Nat
  RelatedAddress : String
  RelatedPort : Nat
  TCPType : String
  SDPMid : String
  SDPMLineIndex : Nat
  deriving DecidableEq, Repr

/-- `newICECandidateFromICE` from `icecandidate.go`: converts an external
candidate, translating type and protocol and copying the related address
when the external candidate has one. -/
def newICECandidateFromICE (candidate : IceCandidate) (sdpMid : String)
    (sdpMLineIndex : Nat) : Except CandError ICECandidate :=
  match convertTypeFromICE candidate.candidateType with
  | (_, some err) => .error err
  | (typ, none) =>
    match NewICEProtocol (networkShort candidate.network) with
    | (_, some err) => .error err
    | (protocol, none) =>
      let newCandidate : ICECandidate :=
        { statsID := candidate.id
          Foundation := candidate.foundation
          Priority := candidate.priority
          Address := candidate.address
          Protocol := protocol
          Port := uint16OfInt candidate.port
          Component := candidate.component
          Typ := typ
          RelatedAddress := ""
          RelatedPort := 0
          TCPType := IceTCPType.toStr candidate.tcpType
          SDPMid := sdpMid
          SDPMLineIndex := sdpMLineIndex }
      match candidate.relatedAddress with
      | some r =>
        .ok { newCandidate with
                RelatedAddress := r.Address
                RelatedPort := uint16OfInt r.Port }
      | none => .ok newCandidate

/-- `ICECandidate.toICE` from `icecandidate.go`: dispatch on the candidate
type, building the matching external configuration; unknown types fail
with `errICECandidateTypeUnknown`. -/
def ICECandidate.toICE (c : ICECandidate) : Except CandError IceCandidate :=
  let candidateID := c.statsID
  if c.Typ = ICECandidateTypeHost then
    .ok (NewCandidateHost
      { CandidateID := candidateID
        Network := ICEProtocol.toStr c.Protocol
        Address := c.Address
        Port := Int.ofNat c.Port
        Component := c.Component
        TCPType := NewTCPType c.TCPType
        Foundation := c.Foundation
        Priority := c.Priority })
  else if c.Typ = ICECandidateTypeSrflx then
    .ok (NewCandidateServerReflexive
      { CandidateID := candidateID
        Network := ICEProtocol.toStr c.Protocol
        Address := c.Address
        Port := Int.ofNat c.Port
        Component := c.Component
        Foundation := c.Foundation
        Priority := c.Priority
        RelAddr := c.RelatedAddress
        RelPort := Int.ofNat c.RelatedPort })
  else if c.Typ = ICECandidateTypePrflx then
    .ok (NewCandidatePeerReflexive
      { CandidateID := candidateID
        Network := ICEProtocol.toStr c.Protocol
        Address := c.Address
        Port := Int.ofNat c.Port
        Component := c.Component
        Foundation := c.Foundation
        Priority := c.Priority
        RelAddr := c.RelatedAddress
        RelPort := Int.ofNat c.RelatedPort })
  else if c.Typ = ICECandidateTypeRelay then
    .ok (NewCandidateRelay
      { CandidateID := candidateID
        Network := ICEProtocol.toStr c.Protocol
        Address := c.Address
        Port := Int.ofNat c.Port
        Component := c.Component
        Foundation := c.Foundation
        Priority := c.Priority
        RelAddr := c.RelatedAddress
        RelPort := Int.ofNat c.RelatedPort })
  else
    .error (.candidateTypeUnknown (ICECandidateType.toStr c.Typ))

/-- `ICECandidateInit` carried by `ToJSON` (candidate string plus SDP
position; Go pointers become options). -/
structure ICECandidateInit where
  Candidate : String
  SDPMid : Option String
  SDPMLineIndex : Option Nat
  UsernameFragment : Option String
  deriving DecidableEq, Repr

/-- `ICECandidate.ToJSON` from `icecandidate.go`: total; the candidate
string degrades to empty when `toICE` fails. -/
def ICECandidate.ToJSON (c : ICECandidate) : ICECandidateInit :=
  let candidateStr : String :=
    match c.toICE with
    | .ok candidate => candidate.Marshal
    | .error _ => ""
  { Candidate := "candidate:" ++ candidateStr
    SDPMid := some c.SDPMid
    SDPMLineIndex := some c.SDPMLineIndex
    UsernameFragment := none }

/-! ## Transceiver registry and negotiation (modelled from the spec)

The `PeerConnection` implementation (add/remove track, applying a remote
answer) is exercised by the tests in the sources but its code lives
outside them, so the registry and the sender-start pass are modelled from
the spec (§4.2 `createOrReuse`/`removeTrack`, §4.3 answer application). -/

/-- Media kind of a transceiver (audio or video). -/
inductive MediaKind
  | audio
  | video
  deriving DecidableEq, Repr, BEq

/-- Transceiver direction enum. -/
inductive RTPTransceiverDirection
  | sendrecv
  | sendonly
  | recvonly
  | inactive
  deriving DecidableEq, Repr, BEq

/-- A direction permits sending when it is `sendrecv` or `sendonly`. -/
def permitsSend : RTPTransceiverDirection → Bool
  | .sendrecv => true
  | .sendonly => true
  | .recvonly => false
  | .inactive => false

/-- Modelled from the spec: a transceiver slot of the registry — stable
mid, media kind, direction, and an optional attached sender (identified by
its track). -/
structure RTPTransceiver where
  mid : Nat
  kind : MediaKind
  direction : RTPTransceiverDirection
  sender : Option Nat
  deriving DecidableEq, Repr

/-- Modelled from the spec: the transceiver registry of a peer connection,
with a counter for fresh mids (new transceivers append). -/
structure PeerConn where
  transceivers : List RTPTransceiver
  nextMid : Nat
  deriving DecidableEq, Repr

/-- A slot is reusable by add-track when the media kind matches, the
sender slot is empty, and the direction permits sending (spec §4.2). -/
def canReuseForSend (k : MediaKind) (t : RTPTransceiver) : Bool :=
  decide (t.kind = k ∧ t.sender = none ∧ permitsSend t.direction = true)

/-- Modelled from the spec: the scan of `createOrReuse` — first
empty-compatible slot wins; `none` when no slot matches. -/
def addTrackLoop (k : MediaKind) (track : Nat) :
    List RTPTransceiver → Option (List RTPTransceiver × Nat)
  | [] => none
  | t :: ts =>
    if canReuseForSend k t then
      some ({ t with sender := some track, direction := .sendrecv } :: ts, t.mid)
    else
      match addTrackLoop k track ts with
      | some (ts2, m) => some (t :: ts2, m)
      | none => none

/-- Modelled from the spec: `addTrack` — reuse the first compatible slot
(reassigning direction and attaching the sender), else append a new
transceiver with a fresh mid.  Returns the mid of the slot used. -/
def PeerConn.addTrack (pc : PeerConn) (k : MediaKind) (track : Nat) :
    PeerConn × Nat :=
  match addTrackLoop k track pc.transceivers with
  | some (ts2, m) => ({ pc with transceivers := ts2 }, m)
  | none =>
    ({ transceivers := pc.transceivers ++
        [{ mid := pc.nextMid, kind := k, direction := .sendrecv,
           sender := some track }]
       nextMid := pc.nextMid + 1 }, pc.nextMid)

/-- Modelled from the spec: `removeTrack` — detach the sender of the slot
with the given mid, keeping the transceiver and renumbering nothing. -/
def PeerConn.removeTrack (pc : PeerConn) (m : Nat) : PeerConn :=
  { pc with
    transceivers := pc.transceivers.map fun t =>
      if t.mid = m then { t with sender := none } else t }

/-- Negotiated media section of an applied description: its mid and
whether it is active for sending (direction includes send). -/
structure MediaSection where
  mid : String
  active : Bool
  deriving DecidableEq, Repr

/-- Local sender as seen by the answer-application pass: the mid of its
transceiver and its started flag. -/
structure NegSender where
  mid : String
  started : Bool
  deriving DecidableEq, Repr

/-- A mid has an active negotiated section in the description. -/
def sectionActive (desc : List MediaSection) (m : String) : Bool :=
  desc.any fun sec => sec.mid == m && sec.active

/-- Modelled from the spec: the sender-start pass run after a remote
answer is applied — every sender whose transceiver's negotiated section is
active is started, every other sender is left as it was. -/
def startNegotiatedSenders (desc : List MediaSection)
    (senders : List NegSender) : List NegSender :=
  senders.map fun s =>
    if sectionActive desc s.mid then { s with started := true } else s

end Webrtc

-- sanity examples, kept as anonymous checks of the embedding
example : Webrtc.ParseURI "turn:example.com" =
    some ⟨.turn, "example.com", 3478, "", ""⟩ := rfl
example :
    Webrtc.ICEServer.validate ⟨["turn:example.com"], "", none, 0⟩ =
      .error (.invalidAccess .noTurnCredentials) := rfl
example :
    Webrtc.ICEServer.validate
      ⟨["turn:example.com"], "u", some (.str "p"), 0⟩ = .ok () := rfl
example : Webrtc.ParseURI "turns:example.com:5349" =
    some ⟨.turns, "example.com", 5349, "", ""⟩ := rfl
example : Webrtc.ParseURI "bogus" = none := rfl
example : Webrtc.isTurnURL "turn:example.com" = true := rfl
example : Webrtc.isTurnURL "stun:example.com" = false := rfl

namespace Webrtc

/-! ## Helper lemmas about ICE-server validation -/

/-- Every error of the validation path is an `InvalidAccessError`. -/
theorem rtcError_shape (e : RTCError) : ∃ c, e = .invalidAccess c := by
  cases e with
  | invalidAccess c => exact ⟨c, rfl⟩

/-- A member whose processing errors makes the whole URL loop error. -/
theorem urlsLoop_error_of_mem (s : ICEServer) (l : List String) (u : String)
    (hu : u ∈ l) (herr : ∃ e, processURL s u = .error e) :
    ∃ e, urlsLoop s l = .error e := by
  induction l with
  | nil => cases hu
  | cons a l ih =>
    cases hu with
    | head =>
      obtain ⟨e, he⟩ := herr
      exact ⟨e, by simp [urlsLoop, he]⟩
    | tail _ hmem =>
      cases hp : processURL s a with
      | error e3 => exact ⟨e3, by simp [urlsLoop, hp]⟩
      | ok v =>
        obtain ⟨e2, he2⟩ := ih hmem
        exact ⟨e2, by simp [urlsLoop, hp, he2]⟩

/-- When all members process successfully, the URL loop succeeds. -/
theorem urlsLoop_ok_of_all (s : ICEServer) (l : List String)
    (h : ∀ u ∈ l, ∃ v, processURL s u = .ok v) :
    ∃ vs, urlsLoop s l = .ok vs := by
  induction l with
  | nil => exact ⟨[], rfl⟩
  | cons a l ih =>
    obtain ⟨v, hv⟩ := h a (List.mem_cons_self a l)
    obtain ⟨vs, hvs⟩ := ih (fun u hu => h u (List.mem_cons_of_mem _ hu))
    exact ⟨v :: vs, by simp [urlsLoop, hv, hvs]⟩

/-- Processing a TURN-family URL with empty username or absent credential
hits the `ErrNoTurnCredentials` branch. -/
theorem processURL_turn_missing (s : ICEServer) (u : String)
    (hturn : isTurnURL u = true)
    (hmiss : s.Username = "" ∨ s.Credential = none) :
    processURL s u = .error (.invalidAccess .noTurnCredentials) := by
  unfold isTurnURL at hturn
  cases h : ParseURI u with
  | none => rw [h] at hturn; simp at hturn
  | some uri =>
    rw [h] at hturn
    have hsch : uri.Scheme = SchemeType.turn ∨ uri.Scheme = SchemeType.turns :=
      of_decide_eq_true hturn
    simp only [processURL, h]
    rw [if_pos hsch, if_pos hmiss]

/-- Processing a successfully parsed non-TURN URL succeeds. -/
theorem processURL_ok_of_not_turn (s : ICEServer) (u : String) (uri : STUNURI)
    (hp : ParseURI u = some uri)
    (ht : uri.Scheme ≠ SchemeType.turn) (ht2 : uri.Scheme ≠ SchemeType.turns) :
    processURL s u = .ok uri := by
  simp [processURL, hp, ht, ht2]

/-- Credential dynamic type matches the declared credential type: a string
under `password`, an `OAuthCredential` under `oauth`. -/
def credentialTypeMatches (s : ICEServer) : Prop :=
  (s.CredentialType = ICECredentialTypePassword ∧
    ∃ p, s.Credential = some (.str p)) ∨
  (s.CredentialType = ICECredentialTypeOauth ∧
    ∃ o, s.Credential = some (.oauth o))

/-- Processing a TURN-family URL with present username/credential but a
credential whose dynamic type does not match the credential type hits the
`ErrTurnCredentials` branch. -/
theorem processURL_turn_mismatch (s : ICEServer) (u : String)
    (hturn : isTurnURL u = true) (hun : s.Username ≠ "")
    (hc : s.Credential ≠ none) (hmm : ¬ credentialTypeMatches s) :
    processURL s u = .error (.invalidAccess .turnCredentials) := by
  unfold isTurnURL at hturn
  cases h : ParseURI u with
  | none => rw [h] at hturn; simp at hturn
  | some uri =>
    rw [h] at hturn
    have hsch : uri.Scheme = SchemeType.turn ∨ uri.Scheme = SchemeType.turns :=
      of_decide_eq_true hturn
    have hnmiss : ¬ (s.Username = "" ∨ s.Credential = none) := by
      rintro (h1 | h2)
      · exact hun h1
      · exact hc h2
    simp only [processURL, h]
    rw [if_pos hsch, if_neg hnmiss]
    by_cases hpw : s.CredentialType = ICECredentialTypePassword
    · rw [if_pos hpw]
      cases hcred : s.Credential with
      | none => exact absurd hcred hc
      | some cv =>
        cases cv with
        | str p => exact absurd (Or.inl ⟨hpw, p, hcred⟩) hmm
        | oauth o => rfl
        | other => rfl
    · rw [if_neg hpw]
      by_cases hoa : s.CredentialType = ICECredentialTypeOauth
      · rw [if_pos hoa]
        cases hcred : s.Credential with
        | none => exact absurd hcred hc
        | some cv =>
          cases cv with
          | str p => rfl
          | oauth o => exact absurd (Or.inr ⟨hoa, o, hcred⟩) hmm
          | other => rfl
      · rw [if_neg hoa]

/-- An erroring URL loop makes `validate` return that error. -/
theorem validate_error_of_urlsLoop (s : ICEServer) (e : RTCError)
    (h : urlsLoop s s.URLs = .error e) : s.validate = .error e := by
  simp [ICEServer.validate, ICEServer.urls, h]

/-! ## Claim theorems for the ICE-server model -/

/-- C1: for every `ICEServer`, validation fails with `InvalidAccessError`
whenever any URL in its list has a TURN or TURNS scheme and either the
username is empty or the credential is absent; in particular
`turn:example.com` with empty username and nil credential fails with the
no-TURN-credentials cause, while the same URL with username `u`, string
credential `p` and credential type password passes validation. -/
theorem iceServer_validate_turn_requires_credentials (s : ICEServer)
    (u : String) (hu : u ∈ s.URLs) (hturn : isTurnURL u = true)
    (hmiss : s.Username = "" ∨ s.Credential = none) :
    (∃ cause, s.validate = .error (.invalidAccess cause)) ∧
    ICEServer.validate
      { URLs := ["turn:example.com"], Username := "", Credential := none,
        CredentialType := ICECredentialTypePassword } =
      .error (.invalidAccess .noTurnCredentials) ∧
    ICEServer.validate
      { URLs := ["turn:example.com"], Username := "u",
        Credential := some (.str "p"),
        CredentialType := ICECredentialTypePassword } = .ok () := by
  refine ⟨?_, rfl, rfl⟩
  have hp := processURL_turn_missing s u hturn hmiss
  obtain ⟨e, he⟩ := urlsLoop_error_of_mem s s.URLs u hu ⟨_, hp⟩
  obtain ⟨c, hc⟩ := rtcError_shape e
  exact ⟨c, hc ▸ validate_error_of_urlsLoop s e he⟩

/-- Witness for C1 at the concrete failing and passing servers of the
spec's credential-validation test. -/
theorem iceServer_validate_turn_requires_credentials_witness :
    (∃ cause,
      ICEServer.validate
        { URLs := ["turn:example.com"], Username := "", Credential := none,
          CredentialType := ICECredentialTypePassword } =
        .error (.invalidAccess cause)) ∧
    ICEServer.validate
      { URLs := ["turn:example.com"], Username := "", Credential := none,
        CredentialType := ICECredentialTypePassword } =
      .error (.invalidAccess .noTurnCredentials) ∧
    ICEServer.validate
      { URLs := ["turn:example.com"], Username := "u",
        Credential := some (.str "p"),
        CredentialType := ICECredentialTypePassword } = .ok () :=
  iceServer_validate_turn_requires_credentials
    { URLs := ["turn:example.com"], Username := "", Credential := none,
      CredentialType := ICECredentialTypePassword }
    "turn:example.com" (by simp) rfl (Or.inl rfl)

/-- C2: for every `ICEServer` containing a TURN-family URL with non-empty
username and non-nil credential, validation succeeds only when the
credential's dynamic type matches the credential type (string under
password, `OAuthCredential` under oauth); any mismatch — including oauth
paired with a string credential, or any other credential-type value —
yields an `InvalidAccessError`. -/
theorem iceServer_validate_credential_type_match (s : ICEServer)
    (u : String) (hu : u ∈ s.URLs) (hturn : isTurnURL u = true)
    (hun : s.Username ≠ "") (hc : s.Credential ≠ none) :
    (¬ credentialTypeMatches s →
      ∃ cause, s.validate = .error (.invalidAccess cause)) ∧
    (s.validate = .ok () → credentialTypeMatches s) ∧
    ICEServer.validate
      { URLs := ["turn:example.com"], Username := "u",
        Credential := some (.str "p"),
        CredentialType := ICECredentialTypeOauth } =
      .error (.invalidAccess .turnCredentials) := by
  have main : ¬ credentialTypeMatches s →
      ∃ cause, s.validate = .error (.invalidAccess cause) := by
    intro hmm
    have hp := processURL_turn_mismatch s u hturn hun hc hmm
    obtain ⟨e, he⟩ := urlsLoop_error_of_mem s s.URLs u hu ⟨_, hp⟩
    obtain ⟨c, hcs⟩ := rtcError_shape e
    exact ⟨c, hcs ▸ validate_error_of_urlsLoop s e he⟩
  refine ⟨main, ?_, rfl⟩
  intro hok
  by_contra hmm
  obtain ⟨cause, hce⟩ := main hmm
  rw [hok] at hce
  cases hce

/-- Witness for C2 at the oauth-typed server carrying a string
credential. -/
theorem iceServer_validate_credential_type_match_witness :
    (¬ credentialTypeMatches
        { URLs := ["turn:example.com"], Username := "u",
          Credential := some (.str "p"),
          CredentialType := ICECredentialTypeOauth } →
      ∃ cause,
        ICEServer.validate
          { URLs := ["turn:example.com"], Username := "u",
            Credential := some (.str "p"),
            CredentialType := ICECredentialTypeOauth } =
          .error (.invalidAccess cause)) ∧
    (ICEServer.validate
        { URLs := ["turn:example.com"], Username := "u",
          Credential := some (.str "p"),
          CredentialType := ICECredentialTypeOauth } = .ok () →
      credentialTypeMatches
        { URLs := ["turn:example.com"], Username := "u",
          Credential := some (.str "p"),
          CredentialType := ICECredentialTypeOauth }) ∧
    ICEServer.validate
      { URLs := ["turn:example.com"], Username := "u",
        Credential := some (.str "p"),
        CredentialType := ICECredentialTypeOauth } =
      .error (.invalidAccess .turnCredentials) :=
  iceServer_validate_credential_type_match
    { URLs := ["turn:example.com"], Username := "u",
      Credential := some (.str "p"),
      CredentialType := ICECredentialTypeOauth }
    "turn:example.com" (by simp) rfl (by simp) (by simp)

/-- C9: for every `ICEServer` whose URLs all parse successfully and none
of which has a TURN or TURNS scheme (including an empty URL list),
validation succeeds regardless of username, credential, and credential
type. -/
theorem iceServer_validate_no_turn_ok (s : ICEServer)
    (h : ∀ u ∈ s.URLs, ∃ uri, ParseURI u = some uri ∧
      uri.Scheme ≠ SchemeType.turn ∧ uri.Scheme ≠ SchemeType.turns) :
    s.validate = .ok () := by
  obtain ⟨vs, hvs⟩ := urlsLoop_ok_of_all s s.URLs (fun u hu => by
    obtain ⟨uri, h1, h2, h3⟩ := h u hu
    exact ⟨uri, processURL_ok_of_not_turn s u uri h1 h2 h3⟩)
  simp [ICEServer.validate, ICEServer.urls, hvs]

/-- Witness for C9: a STUN-only server with empty username, absent
credential and an out-of-range credential type validates. -/
theorem iceServer_validate_no_turn_ok_witness :
    ICEServer.validate
      { URLs := ["stun:stun.l.google.com:19302"], Username := "",
        Credential := none, CredentialType := 7 } = .ok () :=
  iceServer_validate_no_turn_ok
    { URLs := ["stun:stun.l.google.com:19302"], Username := "",
      Credential := none, CredentialType := 7 }
    (by
      intro u hu
      simp only [List.mem_singleton] at hu
      subst hu
      exact ⟨⟨.stun, "stun.l.google.com", 19302, "", ""⟩, rfl, by simp, by simp⟩)

/-! ## Claim theorems for the candidate type model -/

/-- C3: `NewICECandidateType` succeeds exactly on the four known wire
names, returning `ICECandidateTypeUnknown` with the unknown-candidate-type
error otherwise; and `toICE` of a candidate whose `Typ` is outside the
four known kinds fails with the unknown-candidate-type error. -/
theorem newICECandidateType_known_kinds (raw : String) (c : ICECandidate)
    (hc : c.Typ ≠ ICECandidateTypeHost ∧ c.Typ ≠ ICECandidateTypeSrflx ∧
      c.Typ ≠ ICECandidateTypePrflx ∧ c.Typ ≠ ICECandidateTypeRelay) :
    ((NewICECandidateType raw).2 = none ↔
      (raw = "host" ∨ raw = "srflx" ∨ raw = "prflx" ∨ raw = "relay")) ∧
    (¬ (raw = "host" ∨ raw = "srflx" ∨ raw = "prflx" ∨ raw = "relay") →
      NewICECandidateType raw =
        (ICECandidateTypeUnknown, some (.candidateTypeUnknown raw))) ∧
    c.toICE = .error (.candidateTypeUnknown (ICECandidateType.toStr c.Typ)) := by
  obtain ⟨h1, h2, h3, h4⟩ := hc
  refine ⟨?_, ?_, ?_⟩
  · unfold NewICECandidateType
    unfold iceCandidateTypeHostStr iceCandidateTypeSrflxStr
      iceCandidateTypePrflxStr iceCandidateTypeRelayStr
    split_ifs with a b cc d <;> simp_all
  · intro hk
    push_neg at hk
    obtain ⟨k1, k2, k3, k4⟩ := hk
    simp [NewICECandidateType, iceCandidateTypeHostStr,
      iceCandidateTypeSrflxStr, iceCandidateTypePrflxStr,
      iceCandidateTypeRelayStr, k1, k2, k3, k4]
  · simp [ICECandidate.toICE, h1, h2, h3, h4]

/-- Witness for C3 at the unknown wire name `bogus` and a candidate whose
`Typ` is the zero value. -/
theorem newICECandidateType_known_kinds_witness :
    ((NewICECandidateType "bogus").2 = none ↔
      ("bogus" = "host" ∨ "bogus" = "srflx" ∨ "bogus" = "prflx" ∨
        "bogus" = "relay")) ∧
    (¬ ("bogus" = "host" ∨ "bogus" = "srflx" ∨ "bogus" = "prflx" ∨
        "bogus" = "relay") →
      NewICECandidateType "bogus" =
        (ICECandidateTypeUnknown, some (.candidateTypeUnknown "bogus"))) ∧
    ICECandidate.toICE
      ⟨"", "", 0, "", 0, 0, 0, 0, "", 0, "", "", 0⟩ =
      .error (.candidateTypeUnknown
        (ICECandidateType.toStr
          (ICECandidate.Typ ⟨"", "", 0, "", 0, 0, 0, 0, "", 0, "", "", 0⟩))) :=
  newICECandidateType_known_kinds "bogus"
    ⟨"", "", 0, "", 0, 0, 0, 0, "", 0, "", "", 0⟩ (by decide)

/-- C5: `ToJSON` is total — for every candidate it produces an
`ICECandidateInit` carrying the candidate's SDP mid and line index, whose
candidate string is `candidate:` followed by the marshalled wire form when
the internal `toICE` conversion succeeds, and exactly `candidate:` when it
fails. -/
theorem toJSON_total (c : ICECandidate) :
    c.ToJSON.SDPMid = some c.SDPMid ∧
    c.ToJSON.SDPMLineIndex = some c.SDPMLineIndex ∧
    (∀ ic, c.toICE = .ok ic →
      c.ToJSON.Candidate = "candidate:" ++ ic.Marshal) ∧
    (∀ e, c.toICE = .error e → c.ToJSON.Candidate = "candidate:") := by
  cases h : c.toICE with
  | ok ic0 =>
    refine ⟨by simp [ICECandidate.ToJSON, h], by simp [ICECandidate.ToJSON, h],
      ?_, ?_⟩
    · intro ic hic
      obtain rfl : ic0 = ic := by injection hic
      simp [ICECandidate.ToJSON, h]
    · intro e he
      cases he
  | error e0 =>
    refine ⟨by simp [ICECandidate.ToJSON, h], by simp [ICECandidate.ToJSON, h],
      ?_, ?_⟩
    · intro ic hic
      cases hic
    · intro e he
      simp [ICECandidate.ToJSON, h]

/-- Witness for C5 at a candidate with the zero-value type (conversion
fails, the candidate string degrades to `candidate:`) and at a concrete
host candidate (conversion succeeds). -/
theorem toJSON_total_witness :
    (ICECandidate.ToJSON ⟨"", "", 0, "", 0, 0, 0, 0, "", 0, "", "m", 9⟩).Candidate =
      "candidate:" ∧
    (ICECandidate.ToJSON ⟨"", "", 0, "", 0, 0, 0, 0, "", 0, "", "m", 9⟩).SDPMid =
      some "m" ∧
    (ICECandidate.ToJSON
        ⟨"", "", 0, "", 0, 0, 0, 0, "", 0, "", "m", 9⟩).SDPMLineIndex =
      some 9 :=
  ⟨(toJSON_total ⟨"", "", 0, "", 0, 0, 0, 0, "", 0, "", "m", 9⟩).2.2.2
      (.candidateTypeUnknown "unknown") rfl,
    (toJSON_total ⟨"", "", 0, "", 0, 0, 0, 0, "", 0, "", "m", 9⟩).1,
    (toJSON_total ⟨"", "", 0, "", 0, 0, 0, 0, "", 0, "", "m", 9⟩).2.1⟩

/-- Go cast `uint16(int(n))` is the identity on `uint16` values. -/
theorem uint16OfInt_ofNat (n : Nat) (h : n < 65536) :
    uint16OfInt (Int.ofNat n) = n := by
  unfold uint16OfInt
  simp only [Int.ofNat_eq_natCast]
  omega

/-- Translating any network string through `networkShort` yields a name
that `NewICEProtocol` accepts. -/
theorem newICEProtocol_networkShort (n : String) :
    ∃ p, NewICEProtocol (networkShort n) = (p, none) ∧
      (p = ICEProtocolUDP ∨ p = ICEProtocolTCP) := by
  by_cases h : List.isPrefixOf "tcp".toList n.toList
  · refine ⟨ICEProtocolTCP, ?_, Or.inr rfl⟩
    simp only [networkShort, if_pos h]
    rfl
  · refine ⟨ICEProtocolUDP, ?_, Or.inl rfl⟩
    simp only [networkShort, if_neg h]
    rfl

/-- C4: round-tripping is lossless — for each of the four known candidate
type values, parsing the printed name returns exactly that value with no
error (also through `MarshalText`/`UnmarshalText`); and a candidate of a
known kind converted to its ICE form and back agrees with the original on
the grammar-required fields (type, foundation, priority, address,
protocol, port, component, and — for translated candidates — the related
address and port), with only legitimately defaulted fields such as
`tcpType` exempt. -/
theorem candidate_roundtrip (t : ICECandidateType) (c : ICECandidate)
    (ic : IceCandidate)
    (ht : t = ICECandidateTypeHost ∨ t = ICECandidateTypeSrflx ∨
      t = ICECandidateTypePrflx ∨ t = ICECandidateTypeRelay)
    (hct : c.Typ = ICECandidateTypeHost ∨ c.Typ = ICECandidateTypeSrflx ∨
      c.Typ = ICECandidateTypePrflx ∨ c.Typ = ICECandidateTypeRelay)
    (hproto : c.Protocol = ICEProtocolUDP ∨ c.Protocol = ICEProtocolTCP)
    (hport : c.Port < 65536) (hrport : c.RelatedPort < 65536)
    (hok : c.toICE = .ok ic) :
    NewICECandidateType (ICECandidateType.toStr t) = (t, none) ∧
    ICECandidateType.UnmarshalText (ICECandidateType.MarshalText t).1 =
      (t, none) ∧
    ∃ c2, newICECandidateFromICE ic c.SDPMid c.SDPMLineIndex = .ok c2 ∧
      c2.statsID = c.statsID ∧ c2.Foundation = c.Foundation ∧
      c2.Priority = c.Priority ∧ c2.Address = c.Address ∧
      c2.Protocol = c.Protocol ∧ c2.Port = c.Port ∧ c2.Typ = c.Typ ∧
      c2.Component = c.Component ∧ c2.SDPMid = c.SDPMid ∧
      c2.SDPMLineIndex = c.SDPMLineIndex ∧
      (c.Typ ≠ ICECandidateTypeHost →
        c2.RelatedAddress = c.RelatedAddress ∧
        c2.RelatedPort = c.RelatedPort) := by
  refine ⟨?_, ?_, ?_⟩
  · rcases ht with h | h | h | h <;> subst h <;> rfl
  · rcases ht with h | h | h | h <;> subst h <;> rfl
  · rcases hct with h | h | h | h
    · simp only [ICECandidate.toICE] at hok
      rw [if_pos h] at hok
      injection hok with hic
      subst hic
      rcases hproto with hp | hp
      · rw [show ICEProtocol.toStr c.Protocol = "udp" from by rw [hp]; rfl]
        exact ⟨_, rfl, rfl, rfl, rfl, rfl, hp.symm,
          uint16OfInt_ofNat _ hport, h.symm, rfl, rfl, rfl,
          fun hne => absurd h hne⟩
      · rw [show ICEProtocol.toStr c.Protocol = "tcp" from by rw [hp]; rfl]
        exact ⟨_, rfl, rfl, rfl, rfl, rfl, hp.symm,
          uint16OfInt_ofNat _ hport, h.symm, rfl, rfl, rfl,
          fun hne => absurd h hne⟩
    · have hne1 : ¬ (c.Typ = ICECandidateTypeHost) := by rw [h]; decide
      simp only [ICECandidate.toICE] at hok
      rw [if_neg hne1, if_pos h] at hok
      injection hok with hic
      subst hic
      rcases hproto with hp | hp
      · rw [show ICEProtocol.toStr c.Protocol = "udp" from by rw [hp]; rfl]
        exact ⟨_, rfl, rfl, rfl, rfl, rfl, hp.symm,
          uint16OfInt_ofNat _ hport, h.symm, rfl, rfl, rfl,
          fun _ => ⟨rfl, uint16OfInt_ofNat _ hrport⟩⟩
      · rw [show ICEProtocol.toStr c.Protocol = "tcp" from by rw [hp]; rfl]
        exact ⟨_, rfl, rfl, rfl, rfl, rfl, hp.symm,
          uint16OfInt_ofNat _ hport, h.symm, rfl, rfl, rfl,
          fun _ => ⟨rfl, uint16OfInt_ofNat _ hrport⟩⟩
    · have hne1 : ¬ (c.Typ = ICECandidateTypeHost) := by rw [h]; decide
      have hne2 : ¬ (c.Typ = ICECandidateTypeSrflx) := by rw [h]; decide
      simp only [ICECandidate.toICE] at hok
      rw [if_neg hne1, if_neg hne2, if_pos h] at hok
      injection hok with hic
      subst hic
      rcases hproto with hp | hp
      · rw [show ICEProtocol.toStr c.Protocol = "udp" from by rw [hp]; rfl]
        exact ⟨_, rfl, rfl, rfl, rfl, rfl, hp.symm,
          uint16OfInt_ofNat _ hport, h.symm, rfl, rfl, rfl,
          fun _ => ⟨rfl, uint16OfInt_ofNat _ hrport⟩⟩
      · rw [show ICEProtocol.toStr c.Protocol = "tcp" from by rw [hp]; rfl]
        exact ⟨_, rfl, rfl, rfl, rfl, rfl, hp.symm,
          uint16OfInt_ofNat _ hport, h.symm, rfl, rfl, rfl,
          fun _ => ⟨rfl, uint16OfInt_ofNat _ hrport⟩⟩
    · have hne1 : ¬ (c.Typ = ICECandidateTypeHost) := by rw [h]; decide
      have hne2 : ¬ (c.Typ = ICECandidateTypeSrflx) := by rw [h]; decide
      have hne3 : ¬ (c.Typ = ICECandidateTypePrflx) := by rw [h]; decide
      simp only [ICECandidate.toICE] at hok
      rw [if_neg hne1, if_neg hne2, if_neg hne3, if_pos h] at hok
      injection hok with hic
      subst hic
      rcases hproto with hp | hp
      · rw [show ICEProtocol.toStr c.Protocol = "udp" from by rw [hp]; rfl]
        exact ⟨_, rfl, rfl, rfl, rfl, rfl, hp.symm,
          uint16OfInt_ofNat _ hport, h.symm, rfl, rfl, rfl,
          fun _ => ⟨rfl, uint16OfInt_ofNat _ hrport⟩⟩
      · rw [show ICEProtocol.toStr c.Protocol = "tcp" from by rw [hp]; rfl]
        exact ⟨_, rfl, rfl, rfl, rfl, rfl, hp.symm,
          uint16OfInt_ofNat _ hport, h.symm, rfl, rfl, rfl,
          fun _ => ⟨rfl, uint16OfInt_ofNat _ hrport⟩⟩

/-- Witness for C4 at a concrete UDP server-reflexive candidate. -/
theorem candidate_roundtrip_witness :
    NewICECandidateType (ICECandidateType.toStr ICECandidateTypeSrflx) =
      (ICECandidateTypeSrflx, none) ∧
    ICECandidateType.UnmarshalText
      (ICECandidateType.MarshalText ICECandidateTypeSrflx).1 =
      (ICECandidateTypeSrflx, none) ∧
    ∃ c2, newICECandidateFromICE
        ⟨"id", 2, "udp", "5.6.7.8", 3478, 1, "f", 99,
          some ⟨"1.2.3.4", 1234⟩, 0⟩ "mid1" 0 = .ok c2 ∧
      c2.statsID = "id" ∧ c2.Foundation = "f" ∧ c2.Priority = 99 ∧
      c2.Address = "5.6.7.8" ∧ c2.Protocol = ICEProtocolUDP ∧
      c2.Port = 3478 ∧ c2.Typ = ICECandidateTypeSrflx ∧
      c2.Component = 1 ∧ c2.SDPMid = "mid1" ∧ c2.SDPMLineIndex = 0 ∧
      ((ICECandidateTypeSrflx : Int) ≠ ICECandidateTypeHost →
        c2.RelatedAddress = "1.2.3.4" ∧ c2.RelatedPort = 1234) :=
  candidate_roundtrip ICECandidateTypeSrflx
    ⟨"id", "f", 99, "5.6.7.8", ICEProtocolUDP, 3478, ICECandidateTypeSrflx,
      1, "1.2.3.4", 1234, "", "mid1", 0⟩
    ⟨"id", 2, "udp", "5.6.7.8", 3478, 1, "f", 99,
      some ⟨"1.2.3.4", 1234⟩, 0⟩
    (Or.inr (Or.inl rfl)) (Or.inr (Or.inl rfl)) (Or.inl rfl)
    (by decide) (by decide) rfl

/-- Identity of `uint16OfInt` on in-range positive integers. -/
theorem uint16OfInt_small (x : Int) (h0 : 0 ≤ x) (h1 : x < 65536) :
    uint16OfInt x = x.toNat := by
  unfold uint16OfInt
  rw [Int.emod_eq_of_lt h0 h1]

/-- C6: for every candidate produced by conversion from an ICE-agent
candidate (host candidates carry no related address; translated candidates
carry a genuine one), the `RelatedAddress`/`RelatedPort` fields are set —
non-empty and non-zero — exactly when the type is srflx, prflx or relay,
and they are absent for every host candidate. -/
theorem relatedAddress_iff_translated (ic : IceCandidate) (sdpMid : String)
    (idx : Nat) (c : ICECandidate)
    (hHost : ic.candidateType = CandidateTypeHost → ic.relatedAddress = none)
    (hTrans : (ic.candidateType = CandidateTypeServerReflexive ∨
        ic.candidateType = CandidateTypePeerReflexive ∨
        ic.candidateType = CandidateTypeRelay) →
      ∃ ra, ic.relatedAddress = some ra ∧ ra.Address ≠ "" ∧
        0 < ra.Port ∧ ra.Port < 65536)
    (hok : newICECandidateFromICE ic sdpMid idx = .ok c) :
    ((c.RelatedAddress ≠ "" ∧ c.RelatedPort ≠ 0) ↔
      (c.Typ = ICECandidateTypeSrflx ∨ c.Typ = ICECandidateTypePrflx ∨
        c.Typ = ICECandidateTypeRelay)) ∧
    (c.Typ = ICECandidateTypeHost →
      c.RelatedAddress = "" ∧ c.RelatedPort = 0) := by
  obtain ⟨p, hp, hpu⟩ := newICEProtocol_networkShort ic.network
  by_cases h1 : ic.candidateType = CandidateTypeHost
  · have hra := hHost h1
    simp only [newICECandidateFromICE, h1, hra, hp,
      show convertTypeFromICE CandidateTypeHost =
        (ICECandidateTypeHost, none) from rfl] at hok
    injection hok with hok
    subst hok
    refine ⟨?_, fun _ => ⟨rfl, rfl⟩⟩
    simp [ICECandidateTypeHost, ICECandidateTypeSrflx, ICECandidateTypePrflx,
      ICECandidateTypeRelay]
  by_cases h2 : ic.candidateType = CandidateTypeServerReflexive
  · obtain ⟨ra, hra, hraA, hraP1, hraP2⟩ := hTrans (Or.inl h2)
    simp only [newICECandidateFromICE, h2, hra, hp,
      show convertTypeFromICE CandidateTypeServerReflexive =
        (ICECandidateTypeSrflx, none) from rfl] at hok
    injection hok with hok
    subst hok
    refine ⟨⟨fun _ => Or.inl rfl, fun _ => ⟨hraA, ?_⟩⟩, fun habs => ?_⟩
    · show uint16OfInt ra.Port ≠ 0
      rw [uint16OfInt_small ra.Port (by omega) hraP2]
      omega
    · exact absurd habs
        (show (ICECandidateTypeSrflx : ICECandidateType) ≠ ICECandidateTypeHost
          by decide)
  by_cases h3 : ic.candidateType = CandidateTypePeerReflexive
  · obtain ⟨ra, hra, hraA, hraP1, hraP2⟩ := hTrans (Or.inr (Or.inl h3))
    simp only [newICECandidateFromICE, h3, hra, hp,
      show convertTypeFromICE CandidateTypePeerReflexive =
        (ICECandidateTypePrflx, none) from rfl] at hok
    injection hok with hok
    subst hok
    refine ⟨⟨fun _ => Or.inr (Or.inl rfl), fun _ => ⟨hraA, ?_⟩⟩,
      fun habs => ?_⟩
    · show uint16OfInt ra.Port ≠ 0
      rw [uint16OfInt_small ra.Port (by omega) hraP2]
      omega
    · exact absurd habs
        (show (ICECandidateTypePrflx : ICECandidateType) ≠ ICECandidateTypeHost
          by decide)
  by_cases h4 : ic.candidateType = CandidateTypeRelay
  · obtain ⟨ra, hra, hraA, hraP1, hraP2⟩ := hTrans (Or.inr (Or.inr h4))
    simp only [newICECandidateFromICE, h4, hra, hp,
      show convertTypeFromICE CandidateTypeRelay =
        (ICECandidateTypeRelay, none) from rfl] at hok
    injection hok with hok
    subst hok
    refine ⟨⟨fun _ => Or.inr (Or.inr rfl), fun _ => ⟨hraA, ?_⟩⟩,
      fun habs => ?_⟩
    · show uint16OfInt ra.Port ≠ 0
      rw [uint16OfInt_small ra.Port (by omega) hraP2]
      omega
    · exact absurd habs
        (show (ICECandidateTypeRelay : ICECandidateType) ≠ ICECandidateTypeHost
          by decide)
  · exfalso
    have hconv : convertTypeFromICE ic.candidateType =
        (ic.candidateType,
          some (.candidateTypeUnknown (IceCandidateType.toStr ic.candidateType))) := by
      unfold convertTypeFromICE
      rw [if_neg h1, if_neg h2, if_neg h3, if_neg h4]
    simp only [newICECandidateFromICE, hconv] at hok
    cases hok

/-- Witness for C6 at a concrete server-reflexive agent candidate. -/
theorem relatedAddress_iff_translated_witness :
    ((ICECandidate.RelatedAddress
          ⟨"id", "f", 99, "5.6.7.8", 1, 3478, 2, 1, "1.2.3.4", 1234,
            "unspecified", "m", 5⟩ ≠ "" ∧
        ICECandidate.RelatedPort
          ⟨"id", "f", 99, "5.6.7.8", 1, 3478, 2, 1, "1.2.3.4", 1234,
            "unspecified", "m", 5⟩ ≠ 0) ↔
      (ICECandidate.Typ
          ⟨"id", "f", 99, "5.6.7.8", 1, 3478, 2, 1, "1.2.3.4", 1234,
            "unspecified", "m", 5⟩ = ICECandidateTypeSrflx ∨
        ICECandidate.Typ
          ⟨"id", "f", 99, "5.6.7.8", 1, 3478, 2, 1, "1.2.3.4", 1234,
            "unspecified", "m", 5⟩ = ICECandidateTypePrflx ∨
        ICECandidate.Typ
          ⟨"id", "f", 99, "5.6.7.8", 1, 3478, 2, 1, "1.2.3.4", 1234,
            "unspecified", "m", 5⟩ = ICECandidateTypeRelay)) ∧
    (ICECandidate.Typ
        ⟨"id", "f", 99, "5.6.7.8", 1, 3478, 2, 1, "1.2.3.4", 1234,
          "unspecified", "m", 5⟩ = ICECandidateTypeHost →
      ICECandidate.RelatedAddress
          ⟨"id", "f", 99, "5.6.7.8", 1, 3478, 2, 1, "1.2.3.4", 1234,
            "unspecified", "m", 5⟩ = "" ∧
        ICECandidate.RelatedPort
          ⟨"id", "f", 99, "5.6.7.8", 1, 3478, 2, 1, "1.2.3.4", 1234,
            "unspecified", "m", 5⟩ = 0) :=
  relatedAddress_iff_translated
    ⟨"id", 2, "udp", "5.6.7.8", 3478, 1, "f", 99,
      some ⟨"1.2.3.4", 1234⟩, 0⟩ "m" 5
    ⟨"id", "f", 99, "5.6.7.8", 1, 3478, 2, 1, "1.2.3.4", 1234,
      "unspecified", "m", 5⟩
    (by decide)
    (fun _ => ⟨⟨"1.2.3.4", 1234⟩, rfl, by decide, by decide, by decide⟩)
    rfl

/-- C10 counterexample: at the input value 5 — outside the declared
`ice.CandidateType` enum — the two conversion functions return different
`ICECandidateType` results (`Unknown` versus the cast of the input), so
they are not equivalent on every input value. -/
theorem getCandidateType_ne_convertTypeFromICE_at_five :
    (getCandidateType 5).1 ≠ (convertTypeFromICE 5).1 ∧
    (getCandidateType 5).1 = ICECandidateTypeUnknown ∧
    (convertTypeFromICE 5).1 = 5 ∧
    (getCandidateType 5).2.isSome = true ∧
    (convertTypeFromICE 5).2.isSome = true := by
  refine ⟨?_, rfl, rfl, rfl, rfl⟩
  decide

/-- C10 amended: the two conversion functions agree on whether an error is
returned for every input, and return the same `ICECandidateType` exactly
on the five declared `ice.CandidateType` enum values; outside them
`getCandidateType` returns `Unknown` while `convertTypeFromICE` returns
the input value cast to `ICECandidateType`. -/
theorem getCandidateType_convertTypeFromICE_agreement (t : IceCandidateType) :
    ((getCandidateType t).2 = none ↔ (convertTypeFromICE t).2 = none) ∧
    ((convertTypeFromICE t).2 = none ↔
      (t = CandidateTypeHost ∨ t = CandidateTypeServerReflexive ∨
        t = CandidateTypePeerReflexive ∨ t = CandidateTypeRelay)) ∧
    ((getCandidateType t).1 = (convertTypeFromICE t).1 ↔
      (t = CandidateTypeUnspecified ∨ t = CandidateTypeHost ∨
        t = CandidateTypeServerReflexive ∨ t = CandidateTypePeerReflexive ∨
        t = CandidateTypeRelay)) ∧
    ((t = CandidateTypeHost ∨ t = CandidateTypeServerReflexive ∨
        t = CandidateTypePeerReflexive ∨ t = CandidateTypeRelay) →
      getCandidateType t = convertTypeFromICE t) := by
  unfold getCandidateType convertTypeFromICE
  unfold CandidateTypeUnspecified CandidateTypeHost
    CandidateTypeServerReflexive CandidateTypePeerReflexive CandidateTypeRelay
  unfold ICECandidateTypeUnknown ICECandidateTypeHost ICECandidateTypeSrflx
    ICECandidateTypePrflx ICECandidateTypeRelay
  (split_ifs with h1 h2 h3 h4 <;> simp_all)
  exact eq_comm

/-! ## Claim theorems for the transceiver registry and negotiation model -/

/-- Mapping a function that fixes every member of a list is the
identity. -/
theorem listMapNoop {A : Type} (f : A → A) (l : List A)
    (h : ∀ x ∈ l, f x = x) : l.map f = l := by
  induction l with
  | nil => rfl
  | cons x l ih =>
    rw [List.map_cons, h x (List.mem_cons_self x l),
      ih (fun y hy => h y (List.mem_cons_of_mem _ hy))]

/-- A scan over transceivers none of which is reusable finds nothing. -/
theorem addTrackLoop_none (k : MediaKind) (tr : Nat)
    (l : List RTPTransceiver)
    (h : ∀ t ∈ l, canReuseForSend k t = false) :
    addTrackLoop k tr l = none := by
  induction l with
  | nil => rfl
  | cons a l ih =>
    simp only [addTrackLoop]
    rw [if_neg (by simp [h a (List.mem_cons_self a l)]),
      ih (fun t ht => h t (List.mem_cons_of_mem _ ht))]

/-- The scan skips a heading segment with no reusable slot. -/
theorem addTrackLoop_append (k : MediaKind) (tr : Nat)
    (l1 l2 : List RTPTransceiver)
    (h : ∀ t ∈ l1, canReuseForSend k t = false) :
    addTrackLoop k tr (l1 ++ l2) =
      (addTrackLoop k tr l2).map fun r => (l1 ++ r.1, r.2) := by
  induction l1 with
  | nil =>
    cases hr : addTrackLoop k tr l2 with
    | none => simp [hr]
    | some r => simp [hr]
  | cons a l ih =>
    have hrest : addTrackLoop k tr (l.append l2) =
        Option.map (fun r => (l ++ r.1, r.2)) (addTrackLoop k tr l2) :=
      ih (fun t ht => h t (List.mem_cons_of_mem _ ht))
    simp only [List.cons_append, addTrackLoop]
    rw [if_neg (by simp [h a (List.mem_cons_self a _)]), hrest]
    cases hr : addTrackLoop k tr l2 with
    | none => simp [hr]
    | some r => simp [hr]

/-- C7: starting from a registry with no reusable slot of the given kind,
adding track `a`, removing its sender, and adding track `b` of the same
kind reuses the same slot — `b` gets `a`'s original mid and the
transceiver count does not grow — while adding a further track `d` of the
same kind with the slot occupied appends a new transceiver whose mid is
new; the scan takes the first compatible slot and only appends when none
exists. -/
theorem addTrack_mid_reuse (pc : PeerConn) (k : MediaKind) (a b d : Nat)
    (hfree : ∀ t ∈ pc.transceivers, canReuseForSend k t = false)
    (hmid : ∀ t ∈ pc.transceivers, t.mid < pc.nextMid) :
    (((pc.addTrack k a).1.removeTrack (pc.addTrack k a).2).addTrack k b).2 = (pc.addTrack k a).2 ∧
    (((pc.addTrack k a).1.removeTrack (pc.addTrack k a).2).addTrack k b).1.transceivers.length = (pc.addTrack k a).1.transceivers.length ∧
    ((((pc.addTrack k a).1.removeTrack (pc.addTrack k a).2).addTrack k b).1.addTrack k d).1.transceivers.length = (((pc.addTrack k a).1.removeTrack (pc.addTrack k a).2).addTrack k b).1.transceivers.length + 1 ∧
    ∀ t ∈ (((pc.addTrack k a).1.removeTrack (pc.addTrack k a).2).addTrack k b).1.transceivers, t.mid ≠ ((((pc.addTrack k a).1.removeTrack (pc.addTrack k a).2).addTrack k b).1.addTrack k d).2 := by
  have e1 : pc.addTrack k a =
      ({ transceivers := pc.transceivers ++
          [⟨pc.nextMid, k, .sendrecv, some a⟩],
         nextMid := pc.nextMid + 1 }, pc.nextMid) := by
    unfold PeerConn.addTrack
    rw [addTrackLoop_none k a pc.transceivers hfree]
  have e2x : PeerConn.removeTrack
      { transceivers := pc.transceivers ++
          [⟨pc.nextMid, k, .sendrecv, some a⟩],
        nextMid := pc.nextMid + 1 } pc.nextMid =
      { transceivers := pc.transceivers ++
          [⟨pc.nextMid, k, .sendrecv, none⟩],
        nextMid := pc.nextMid + 1 } := by
    unfold PeerConn.removeTrack
    simp only [List.map_append, List.map_cons, List.map_nil]
    rw [listMapNoop _ _ (fun t ht => if_neg (Nat.ne_of_lt (hmid t ht)))]
    simp
  have e2 : (pc.addTrack k a).1.removeTrack (pc.addTrack k a).2 =
      { transceivers := pc.transceivers ++
          [⟨pc.nextMid, k, .sendrecv, none⟩],
        nextMid := pc.nextMid + 1 } := by
    rw [e1]
    exact e2x
  have e3 : PeerConn.addTrack
      { transceivers := pc.transceivers ++
          [⟨pc.nextMid, k, .sendrecv, none⟩],
        nextMid := pc.nextMid + 1 } k b =
      ({ transceivers := pc.transceivers ++
          [⟨pc.nextMid, k, .sendrecv, some b⟩],
         nextMid := pc.nextMid + 1 }, pc.nextMid) := by
    unfold PeerConn.addTrack
    rw [show (PeerConn.mk (pc.transceivers ++
        [⟨pc.nextMid, k, .sendrecv, none⟩]) (pc.nextMid + 1)).transceivers =
      pc.transceivers ++ [⟨pc.nextMid, k, .sendrecv, none⟩] from rfl]
    rw [addTrackLoop_append k b _ _ hfree]
    rw [show addTrackLoop k b [⟨pc.nextMid, k, .sendrecv, none⟩] =
        some ([⟨pc.nextMid, k, .sendrecv, some b⟩], pc.nextMid) from by
      simp only [addTrackLoop]
      rw [if_pos (show canReuseForSend k ⟨pc.nextMid, k, .sendrecv, none⟩ =
        true from decide_eq_true ⟨rfl, rfl, rfl⟩)]]
    rfl
  have hfree2 : ∀ t ∈ pc.transceivers ++
      [⟨pc.nextMid, k, .sendrecv, some b⟩], canReuseForSend k t = false := by
    intro t ht
    rcases List.mem_append.mp ht with hl | hl
    · exact hfree t hl
    · simp only [List.mem_singleton] at hl
      subst hl
      exact decide_eq_false (by rintro ⟨-, hs, -⟩; cases hs)
  have e4 : PeerConn.addTrack
      { transceivers := pc.transceivers ++
          [⟨pc.nextMid, k, .sendrecv, some b⟩],
        nextMid := pc.nextMid + 1 } k d =
      ({ transceivers := (pc.transceivers ++
          [⟨pc.nextMid, k, .sendrecv, some b⟩]) ++
          [⟨pc.nextMid + 1, k, .sendrecv, some d⟩],
         nextMid := pc.nextMid + 1 + 1 }, pc.nextMid + 1) := by
    unfold PeerConn.addTrack
    rw [show (PeerConn.mk (pc.transceivers ++
        [⟨pc.nextMid, k, .sendrecv, some b⟩]) (pc.nextMid + 1)).transceivers =
      pc.transceivers ++ [⟨pc.nextMid, k, .sendrecv, some b⟩] from rfl]
    rw [addTrackLoop_none k d _ hfree2]
  refine ⟨?_, ?_, ?_, ?_⟩
  · rw [e2, e3, e1]
  · rw [e2, e3, e1]
    simp
  · rw [e2, e3, e4]
    simp
  · rw [e2, e3, e4]
    intro t ht
    show t.mid ≠ pc.nextMid + 1
    have ht2 : t ∈ pc.transceivers ++
        [⟨pc.nextMid, k, .sendrecv, some b⟩] := ht
    rcases List.mem_append.mp ht2 with hl | hl
    · have := hmid t hl
      omega
    · simp only [List.mem_singleton] at hl
      subst hl
      show pc.nextMid ≠ pc.nextMid + 1
      omega

/-- Witness for C7 from the empty registry with video tracks 1, 2, 3. -/
theorem addTrack_mid_reuse_witness :
    ((((PeerConn.mk [] 0).addTrack MediaKind.video 1).1.removeTrack ((PeerConn.mk [] 0).addTrack MediaKind.video 1).2).addTrack MediaKind.video 2).2 = ((PeerConn.mk [] 0).addTrack MediaKind.video 1).2 ∧
    ((((PeerConn.mk [] 0).addTrack MediaKind.video 1).1.removeTrack ((PeerConn.mk [] 0).addTrack MediaKind.video 1).2).addTrack MediaKind.video 2).1.transceivers.length = ((PeerConn.mk [] 0).addTrack MediaKind.video 1).1.transceivers.length ∧
    (((((PeerConn.mk [] 0).addTrack MediaKind.video 1).1.removeTrack ((PeerConn.mk [] 0).addTrack MediaKind.video 1).2).addTrack MediaKind.video 2).1.addTrack MediaKind.video 3).1.transceivers.length = ((((PeerConn.mk [] 0).addTrack MediaKind.video 1).1.removeTrack ((PeerConn.mk [] 0).addTrack MediaKind.video 1).2).addTrack MediaKind.video 2).1.transceivers.length + 1 ∧
    ∀ t ∈ ((((PeerConn.mk [] 0).addTrack MediaKind.video 1).1.removeTrack ((PeerConn.mk [] 0).addTrack MediaKind.video 1).2).addTrack MediaKind.video 2).1.transceivers, t.mid ≠ (((((PeerConn.mk [] 0).addTrack MediaKind.video 1).1.removeTrack ((PeerConn.mk [] 0).addTrack MediaKind.video 1).2).addTrack MediaKind.video 2).1.addTrack MediaKind.video 3).2 :=
  addTrack_mid_reuse (PeerConn.mk [] 0) MediaKind.video 1 2 3
    (by intro t ht; cases ht) (by intro t ht; cases ht)

/-- C8: the sender-start pass run when a remote answer is applied starts
exactly the senders whose negotiated section is active — each sender's
started flag afterwards is its old flag or-ed with whether its
transceiver's section is active, so a sender added after the offer (with
no active negotiated section) is not started, and already-started senders
stay started. -/
theorem startNegotiatedSenders_exact (desc : List MediaSection)
    (senders : List NegSender) (i : Nat) (h : i < senders.length)
    (h2 : i < (startNegotiatedSenders desc senders).length) :
    ((startNegotiatedSenders desc senders).get ⟨i, h2⟩).mid =
      (senders.get ⟨i, h⟩).mid ∧
    ((startNegotiatedSenders desc senders).get ⟨i, h2⟩).started =
      ((senders.get ⟨i, h⟩).started ||
        sectionActive desc (senders.get ⟨i, h⟩).mid) := by
  have hg : (startNegotiatedSenders desc senders).get ⟨i, h2⟩ =
      (fun s => if sectionActive desc s.mid then
        { s with started := true } else s) (senders.get ⟨i, h⟩) := by
    simp [startNegotiatedSenders]
  rw [hg]
  show (if sectionActive desc ((senders.get ⟨i, h⟩).mid) then
      { senders.get ⟨i, h⟩ with started := true }
    else senders.get ⟨i, h⟩).mid = (senders.get ⟨i, h⟩).mid ∧
    (if sectionActive desc ((senders.get ⟨i, h⟩).mid) then
      { senders.get ⟨i, h⟩ with started := true }
    else senders.get ⟨i, h⟩).started =
      ((senders.get ⟨i, h⟩).started ||
        sectionActive desc ((senders.get ⟨i, h⟩).mid))
  cases hact : sectionActive desc ((senders.get ⟨i, h⟩).mid) with
  | true => exact ⟨rfl, (Bool.or_true _).symm⟩
  | false => exact ⟨rfl, (Bool.or_false _).symm⟩

/-- Witness for C8 mirroring the only-negotiated-senders test: the first
sender's section is active in the answer and it starts; the second sender
was added after the offer, has no active section, and stays unstarted. -/
theorem startNegotiatedSenders_exact_witness :
    ((startNegotiatedSenders [⟨"0", true⟩]
        [⟨"0", false⟩, ⟨"1", false⟩]).get ⟨0, by decide⟩).started = true ∧
    ((startNegotiatedSenders [⟨"0", true⟩]
        [⟨"0", false⟩, ⟨"1", false⟩]).get ⟨1, by decide⟩).started = false :=
  ⟨((startNegotiatedSenders_exact [⟨"0", true⟩]
      [⟨"0", false⟩, ⟨"1", false⟩] 0 (by decide) (by decide)).2).trans
      (by decide),
    ((startNegotiatedSenders_exact [⟨"0", true⟩]
      [⟨"0", false⟩, ⟨"1", false⟩] 1 (by decide) (by decide)).2).trans
      (by decide)⟩

end Webrtc
